import Mathlib

/-
Verification of the flight_finder repository (daily_flight_report.py).

This file gives a shallow embedding of the data model and the pure parts of
the pipeline: the offer normalizer (parse_offer), the time-of-day filter
(_too_early), the response parser (_parse_response), the round-trip date-pair
loop of fetch_all_flights, the trip-type selection of main, and the summary
renderer (render_summary_table).  Python dictionaries with .get defaults are
modeled as structures with Option fields plus Option.getD; Python strings are
Lean strings; Python string comparison is embedded as an explicit lexicographic
comparison on code points; machine floats (only used for the price) are modeled
as rationals.  Each claim of the specification is then stated and proved as a
theorem about these definitions.
-/

/-- Lexicographic strict comparison of code-point lists, embedding the
comparison Python performs on strings (a shorter strict prefix is smaller). -/
def lexLt : List Char → List Char → Bool
  | [], [] => false
  | [], _ :: _ => true
  | _ :: _, [] => false
  | a :: as, b :: bs =>
    if a.toNat < b.toNat then true
    else if b.toNat < a.toNat then false
    else lexLt as bs

/-- Embedding of the Python expression a < b on strings. -/
def strLtB (a b : String) : Bool := lexLt a.toList b.toList

/-- Embedding of the Python expression a <= b on strings: for the total
lexicographic order, a <= b holds exactly when not (b < a). -/
def strLeB (a b : String) : Bool := !(strLtB b a)

/-- Embedding of the Python slice s[a:b] by character positions. -/
def pySlice (s : String) (a b : Nat) : String :=
  String.mk ((s.toList.drop a).take (b - a))

/-- Splitter on a single character, embedding the Python str.split(sep) call
for a one-character separator: empty pieces are kept, and the empty string
splits to one empty piece. -/
def splitOnChar (c : Char) : List Char → List (List Char)
  | [] => [[]]
  | x :: xs =>
    let r := splitOnChar c xs
    if x = c then [] :: r
    else
      match r with
      | [] => [[x]]
      | y :: ys => (x :: y) :: ys

/-- Embedding of the Python call s.split(","). -/
def pySplitCommas (s : String) : List String :=
  (splitOnChar (Char.ofNat 44) s.toList).map String.mk

/-- Whitespace test used by the strip embedding (ASCII whitespace). -/
def isPySpace (c : Char) : Bool :=
  c.toNat = 32 ∨ c.toNat = 9 ∨ c.toNat = 10 ∨ c.toNat = 13 ∨ c.toNat = 11 ∨ c.toNat = 12

/-- Embedding of the Python call s.strip(): remove leading and trailing
whitespace. -/
def pyStrip (s : String) : String :=
  String.mk (((s.toList.dropWhile isPySpace).reverse.dropWhile isPySpace).reverse)

/-- Embedding of _format_minutes: divmod(mins, 60) with Python floor-division
semantics, rendered as "Xh Ym", or "Xh" when the minute part is zero. -/
def _format_minutes (mins : Int) : String :=
  let h := Int.fdiv mins 60
  let m := Int.fmod mins 60
  if m ≠ 0 then toString h ++ "h " ++ toString m ++ "m" else toString h ++ "h"

/-- Layover entry of a raw offer group: dictionary with optional id and
duration keys. -/
structure Layover where
  id : Option String
  duration : Option Int
deriving DecidableEq

/-- Embedding of _format_layovers: "—" when the list is empty, otherwise
entries "ID (Xh Ym)" joined with " · ", with "?" for a missing id and 0 for a
missing duration. -/
def _format_layovers (layovers : List Layover) : String :=
  if layovers.isEmpty then "—"
  else
    String.intercalate " · "
      (layovers.map (fun l => (l.id.getD "?") ++ " (" ++ _format_minutes (l.duration.getD 0) ++ ")"))

/-- Round a rational to the nearest integer, ties to even, computed on the
numerator and denominator; this is the rounding performed by the Python
format specifier ".0f" (floats are modeled as rationals here). -/
def roundHalfEven (q : ℚ) : Int :=
  let f := Int.fdiv q.num q.den
  let r := q.num - f * q.den
  if 2 * r < (q.den : Int) then f
  else if (q.den : Int) < 2 * r then f + 1
  else if Int.fmod f 2 = 0 then f else f + 1

/-- Insert a comma after every three digits; the input and output lists hold
the digits least-significant first. -/
def commaGroupAux : List Char → List Char
  | c1 :: c2 :: c3 :: c4 :: rest => c1 :: c2 :: c3 :: Char.ofNat 44 :: commaGroupAux (c4 :: rest)
  | l => l

/-- Decimal digits of a natural number grouped by thousands with commas. -/
def natCommaString (n : Nat) : String :=
  String.mk (commaGroupAux (Nat.toDigits 10 n).reverse).reverse

/-- Embedding of the Python f-string format spec ",.0f": round to zero decimal
places (half to even) and group the integer digits by thousands. -/
def formatPrice (q : ℚ) : String :=
  let n := roundHalfEven q
  if n < 0 then "-" ++ natCommaString n.natAbs else natCommaString n.natAbs

/-- Embedding of google_flights_url: the constructed one-way deep link. -/
def google_flights_url (origin destination date : String) (adults : Nat) : String :=
  "https://www.google.com/travel/flights?f=" ++ origin ++ "&t=" ++ destination
    ++ "&d=" ++ date ++ "&return=0&adults=" ++ toString adults ++ "&curr=CAD"

/-- Airport sub-dictionary of a segment: optional time and id keys. -/
structure Airport where
  time : Option String
  id : Option String
deriving DecidableEq

/-- One flight segment of a raw offer group. -/
structure Segment where
  departure_airport : Option Airport
  arrival_airport : Option Airport
  airline : Option String
deriving DecidableEq

/-- Raw offer group as returned by the search API: every key may be absent.
The _book_url key is the deep link attached by _parse_response. -/
structure RawOfferGroup where
  flights : Option (List Segment)
  layovers : Option (List Layover)
  total_duration : Option Int
  price : Option ℚ
  _book_url : Option String
deriving DecidableEq

/-- The search_metadata sub-dictionary of an API response. -/
structure SearchMetadata where
  google_flights_url : Option String
deriving DecidableEq

/-- API response body: metadata plus the two ranked offer-group lists. -/
structure ApiResponse where
  search_metadata : Option SearchMetadata
  best_flights : Option (List RawOfferGroup)
  other_flights : Option (List RawOfferGroup)
deriving DecidableEq

/-- Module-level configuration of the script, as read from the environment:
origin code, currency, passenger count, maximum results per search, the
optional time-of-day cutoff (empty string means unset, as in the source where
a missing variable defaults to the empty string), and the ordered destination
(name, code) pairs. -/
structure Config where
  origin : String
  currency : String
  adults : Nat
  maxResults : Nat
  earliestDepDate : String
  earliestDepTime : String
  destinations : List (String × String)
deriving DecidableEq

/-- Empty airport dictionary, the default of .get("departure_airport", \x7b\x7d). -/
def emptyAirport : Airport := { time := none, id := none }

/-- Empty metadata dictionary, the default of .get("search_metadata", \x7b\x7d). -/
def emptyMetadata : SearchMetadata := { google_flights_url := none }

/-- Flattened display record produced by parse_offer; field names follow the
keys of the dictionary built by the source. -/
structure OfferRecord where
  trip_type : String
  destination : String
  dest_code : String
  departure_date : String
  airline : String
  dep_time : String
  arr_time : String
  arr_date : String
  duration : String
  stops : String
  via : String
  price_str : String
  price_raw : ℚ
  currency : String
  return_date : String
  book_url : String
deriving DecidableEq

/-- One step of the airline-collection loop in parse_offer: append the name
when it is non-empty and not yet seen (the Python seen set always holds
exactly the elements of the accumulator list). -/
def dedupStep (acc : List String) (airline : String) : List String :=
  if airline ≠ "" ∧ airline ∉ acc then acc ++ [airline] else acc

/-- Embedding of the airline-collection loop of parse_offer over all segment
airline names in order. -/
def airlineDedup (names : List String) : List String :=
  names.foldl dedupStep []

/-- Specification-side first-occurrence deduplication: keep the head and
remove its later duplicates from the deduplicated tail, so each name keeps
only its first occurrence and the relative order of first occurrences is
preserved. -/
def firstOccurDedup : List String → List String
  | [] => []
  | a :: l => a :: (firstOccurDedup l).filter (fun b => decide (b ≠ a))

/-- Predicate for the elements the airline loop would append given the seen
accumulator acc. -/
def keepP (acc : List String) (a : String) : Bool :=
  decide (a ≠ "" ∧ a ∉ acc)

/-- Embedding of parse_offer: flatten one raw offer group into a display
record, or produce none when the group has no flight segments. -/
def parse_offer (cfg : Config) (flight_group : RawOfferGroup)
    (dest_name dest_code dep_date trip_type : String)
    (return_date : Option String) : Option OfferRecord :=
  match flight_group.flights.getD [] with
  | [] => none
  | first_seg :: rest =>
    let flights := first_seg :: rest
    let last_seg := rest.getLastD first_seg
    let dep_at := (first_seg.departure_airport.getD emptyAirport).time.getD ""
    let arr_at := (last_seg.arrival_airport.getD emptyAirport).time.getD ""
    let dep_time := if dep_at.length ≥ 16 then pySlice dep_at 11 16 else dep_at
    let arr_time := if arr_at.length ≥ 16 then pySlice arr_at 11 16 else arr_at
    let arr_date := if arr_at.length ≥ 10 then pySlice arr_at 0 10 else ""
    let airline_str := String.intercalate " / " (airlineDedup (flights.map (fun seg => seg.airline.getD "")))
    let layovers := flight_group.layovers.getD []
    let stops := layovers.length
    let stops_str := if stops = 0 then "Direct" else toString stops ++ " stop" ++ (if stops > 1 then "s" else "")
    let via_str := _format_layovers layovers
    let total_dur := flight_group.total_duration.getD 0
    let duration := if total_dur ≠ 0 then _format_minutes total_dur else ""
    let price_raw : ℚ := flight_group.price.getD 0
    let price_str := formatPrice price_raw
    let origin_code := (first_seg.departure_airport.getD emptyAirport).id.getD cfg.origin
    let dest_code_act := (last_seg.arrival_airport.getD emptyAirport).id.getD dest_code
    let bu := flight_group._book_url.getD ""
    some {
      trip_type := trip_type
      destination := dest_name
      dest_code := dest_code
      departure_date := dep_date
      airline := airline_str
      dep_time := dep_time
      arr_time := arr_time
      arr_date := arr_date
      duration := duration
      stops := stops_str
      via := via_str
      price_str := price_str
      price_raw := price_raw
      currency := cfg.currency
      return_date := return_date.getD ""
      book_url := if bu = "" then google_flights_url origin_code dest_code_act dep_date cfg.adults else bu
    }

/-- Embedding of _too_early: exclude a flight only when both cutoff settings
are configured (non-empty), the departure date equals the cutoff date, and
the departure time is lexicographically before the cutoff time. -/
def _too_early (cfg : Config) (flight : OfferRecord) : Bool :=
  if cfg.earliestDepDate = "" ∨ cfg.earliestDepTime = "" then false
  else if flight.departure_date ≠ cfg.earliestDepDate then false
  else strLtB flight.dep_time cfg.earliestDepTime

/-- The (departure date, return date) pairs for which the roundtrip branch of
fetch_all_flights calls search_flights for one destination: the nested loop
skips a pair with the continue statement exactly when ret <= dep. -/
def roundtripQueries (dep_dates ret_dates : List String) : List (String × String) :=
  dep_dates.flatMap (fun dep =>
    ret_dates.filterMap (fun ret => if strLeB ret dep then none else some (dep, ret)))

/-- Reset the attached deep link of a group; used to compare returned groups
with the raw ones up to the _book_url key. -/
def eraseBookUrl (g : RawOfferGroup) : RawOfferGroup :=
  { g with _book_url := none }

/-- Embedding of _parse_response: concatenate the best and other lists,
attach the metadata deep link to every group, and keep the first maxResults
groups.  The source mutates each dictionary in place before slicing; mapping
and then taking yields the same returned list. -/
def _parse_response (maxResults : Nat) (data : ApiResponse) : List RawOfferGroup :=
  let book_url := (data.search_metadata.getD emptyMetadata).google_flights_url.getD ""
  let results := data.best_flights.getD [] ++ data.other_flights.getD []
  (results.map (fun fg => { fg with _book_url := some book_url })).take maxResults

/-- Embedding of get_active_trip_types: split the environment value on commas
and keep the stripped entries that name a valid trip type. -/
def get_active_trip_types (tripTypesEnv : String) : List String :=
  (pySplitCommas tripTypesEnv).filterMap (fun t =>
    if pyStrip t ∈ (["outbound", "return", "roundtrip"] : List String) then some (pyStrip t) else none)

/-- Trip types actually used by main: when no return dates are configured the
list is filtered down to its outbound entries, and when that filter leaves
nothing, outbound is forced. -/
def mainTripTypes (tripTypesEnv : String) (retDates : List String) : List String :=
  let trip_types := get_active_trip_types tripTypesEnv
  if retDates.isEmpty then
    let tt := trip_types.filter (fun t => t == "outbound")
    if tt.isEmpty then ["outbound"] else tt
  else trip_types

/-- Header background color constant of the renderer. -/
def _HEADER_COLOR : String := "#1a4f7a"

/-- Highlight row background color constant of the renderer. -/
def _ALT_ROW : String := "#f2f7fc"

/-- Embedding of the _FLAG lookup with its default empty string. -/
def _FLAG (name : String) : String :=
  if name = "Japan (Tokyo)" then "JP"
  else if name = "Japan (Osaka)" then "JP"
  else if name = "Taiwan" then "TW"
  else ""

/-- Embedding of _th. -/
def _th (text : String) : String :=
  "<th style=\"padding:8px 10px; background:" ++ _HEADER_COLOR
    ++ "; color:#fff; text-align:left; white-space:nowrap;\">" ++ text ++ "</th>"

/-- Embedding of _td. -/
def _td (text : String) (bold : Bool) : String :=
  "<td style=\"padding:7px 10px; " ++ (if bold then "font-weight:bold;" else "")
    ++ " white-space:nowrap;\">" ++ text ++ "</td>"

/-- Embedding of _td_link. -/
def _td_link (url : String) (label : String) : String :=
  "<td style=\"padding:7px 10px; white-space:nowrap;\"><a href=\"" ++ url
    ++ "\" target=\"_blank\" style=\"color:" ++ _HEADER_COLOR
    ++ "; font-weight:bold;\">" ++ label ++ "</a></td>"

/-- Embedding of _next_day: the +1 badge when the arrival date is non-empty
and differs from the departure date. -/
def _next_day (dep_date arr_date : String) : String :=
  if arr_date ≠ "" ∧ arr_date ≠ dep_date
  then "<sup style=\"color:#c0392b; font-size:9px; margin-left:2px;\">+1</sup>"
  else ""

/-- Embedding of _arr_cell. -/
def _arr_cell (dep_date arr_time arr_date : String) : String :=
  arr_time ++ _next_day dep_date arr_date

/-- Embedding of the Python min call with the price_raw key over a non-empty
list: fold that keeps the current candidate unless a strictly cheaper offer
appears, so the first offer with minimal price is selected. -/
def pyMinByPrice (f : OfferRecord) (rest : List OfferRecord) : OfferRecord :=
  rest.foldl (fun acc x => if x.price_raw < acc.price_raw then x else acc) f

/-- One structured row of the summary table. -/
structure SummaryRow where
  date : String
  destName : String
  offer : OfferRecord
  bg : String
deriving DecidableEq

/-- Inner loop of render_summary_table for one departure date: walk the
configured destinations carrying the first flag, emit a row with the cheapest
offer for every destination that has offers on this date, highlight the first
emitted row of the date group. -/
def summaryRowsGo (outbound : String → List OfferRecord) (date : String) :
    List (String × String) → Bool → List SummaryRow
  | [], _ => []
  | (dest_name, _) :: rest, first =>
    match (outbound dest_name).filter (fun f => f.departure_date == date) with
    | [] => summaryRowsGo outbound date rest first
    | g :: gs =>
      { date := date
        destName := dest_name
        offer := pyMinByPrice g gs
        bg := if first then _ALT_ROW else "#ffffff" } :: summaryRowsGo outbound date rest false

/-- All structured rows of the summary table, dates outer and destinations
inner, the first flag reset at each date. -/
def summaryRows (cfg : Config) (outbound : String → List OfferRecord)
    (dep_dates : List String) : List SummaryRow :=
  dep_dates.flatMap (fun date => summaryRowsGo outbound date cfg.destinations true)

/-- Specification-side description of the summary rows: for each departure
date in order and each destination in configured order, one (date, name,
cheapest offer) triple when the destination has offers on that date, nothing
otherwise. -/
def summaryRowsSpec (cfg : Config) (outbound : String → List OfferRecord)
    (dep_dates : List String) : List (String × String × OfferRecord) :=
  dep_dates.flatMap (fun date =>
    cfg.destinations.filterMap (fun p =>
      match (outbound p.1).filter (fun f => f.departure_date == date) with
      | [] => none
      | g :: gs => some (date, p.1, pyMinByPrice g gs)))

/-- HTML text of one summary row, mirroring the cell sequence of the source. -/
def renderSummaryRow (r : SummaryRow) : String :=
  "<tr style=\"background:" ++ r.bg ++ ";\">"
    ++ _td r.date false
    ++ _td (_FLAG r.destName ++ " " ++ r.destName) false
    ++ _td r.offer.airline false
    ++ _td r.offer.dep_time false
    ++ _td (_arr_cell r.offer.departure_date r.offer.arr_time r.offer.arr_date) false
    ++ _td r.offer.duration false
    ++ _td r.offer.stops false
    ++ _td r.offer.via false
    ++ _td (r.offer.currency ++ " " ++ r.offer.price_str) true
    ++ _td_link r.offer.book_url "Search"
    ++ "</tr>"

/-- Header row of the summary table. -/
def summaryHeader (cfg : Config) : String :=
  "<tr>" ++ _th "Departure Date" ++ _th "Destination" ++ _th "Airline(s)"
    ++ _th ("Departs (" ++ cfg.origin ++ ")") ++ _th "Arrives" ++ _th "Duration"
    ++ _th "Stops" ++ _th "Via" ++ _th ("Best Price (" ++ cfg.currency ++ ")")
    ++ _th "Book" ++ "</tr>"

/-- Placeholder paragraph emitted when the summary has no rows. -/
def noOutboundDataHtml : String :=
  "<p style=\x27color:#888;\x27>No outbound flight data found.</p>"

/-- Full summary table document around the joined row strings. -/
def summaryTableHtml (cfg : Config) (rowsHtml : String) : String :=
  "\n<h3 style=\"color:" ++ _HEADER_COLOR ++ "; margin-top:0;\">\n  Cheapest Outbound Flight Per Destination\n</h3>\n<table cellpadding=\"0\" cellspacing=\"0\" border=\"0\"\n       style=\"border-collapse:collapse; font-family:Arial,sans-serif; font-size:13px;\n              width:100%; max-width:1100px; border:1px solid #ccc;\">\n  <thead>" ++ summaryHeader cfg ++ "</thead>\n  <tbody>" ++ rowsHtml ++ "</tbody>\n</table>\n"

/-- Embedding of render_summary_table: build the structured rows, emit the
placeholder when there are none, and otherwise the table with one HTML row
per structured row.  The nested results dictionary is passed as its outbound
sub-map, the only part the source reads. -/
def render_summary_table (cfg : Config) (outbound : String → List OfferRecord)
    (dep_dates : List String) : String :=
  let rows := summaryRows cfg outbound dep_dates
  if rows.isEmpty then noOutboundDataHtml
  else summaryTableHtml cfg (String.join (rows.map renderSummaryRow))

/-- Sample configuration with the default destinations and no time cutoff,
used by concrete witness instances. -/
def cfgDemo : Config :=
  { origin := "YYZ", currency := "CAD", adults := 1, maxResults := 5
    earliestDepDate := "", earliestDepTime := ""
    destinations := [("Japan (Tokyo)", "NRT"), ("Japan (Osaka)", "KIX"), ("Taiwan", "TPE")] }

/-- Sample configuration with a configured time-of-day cutoff. -/
def cfgCut : Config :=
  { cfgDemo with earliestDepDate := "2026-10-23", earliestDepTime := "19:00" }

/-- Sample segment operated by Air Canada. -/
def segAC : Segment :=
  { departure_airport := some { time := some "2026-10-23 19:30", id := some "YYZ" }
    arrival_airport := some { time := some "2026-10-24 06:10", id := some "ICN" }
    airline := some "Air Canada" }

/-- Second sample segment also operated by Air Canada. -/
def segAC2 : Segment :=
  { departure_airport := some { time := some "2026-10-24 08:00", id := some "ICN" }
    arrival_airport := some { time := some "2026-10-24 17:05", id := some "NRT" }
    airline := some "Air Canada" }

/-- Raw offer group whose price is negative. -/
def gNegPrice : RawOfferGroup :=
  { flights := some [segAC], layovers := some [], total_duration := some 830
    price := some (-5), _book_url := none }

/-- Raw offer group priced 1450 with two segments of the same airline. -/
def gAir : RawOfferGroup :=
  { flights := some [segAC, segAC2], layovers := some [{ id := some "ICN", duration := some 110 }]
    total_duration := some 1295, price := some 1450, _book_url := some "https://g/pre" }

/-- Raw offer group with an empty segment list. -/
def gEmptyFlights : RawOfferGroup :=
  { flights := some [], layovers := none, total_duration := none, price := some 999
    _book_url := none }

/-- Raw offer group with segments but no total_duration key. -/
def gNoDuration : RawOfferGroup :=
  { flights := some [segAC], layovers := none, total_duration := none, price := some 1300
    _book_url := none }

/-- Build a minimal outbound offer record for renderer witnesses. -/
def mkOffer (date : String) (price : ℚ) : OfferRecord :=
  { trip_type := "outbound", destination := "Japan (Tokyo)", dest_code := "NRT"
    departure_date := date, airline := "Air Canada", dep_time := "19:30"
    arr_time := "17:05", arr_date := "", duration := "13h 50m", stops := "Direct"
    via := "—", price_str := formatPrice price, price_raw := price, currency := "CAD"
    return_date := "", book_url := "https://g/pre" }

/-- Sample outbound aggregate: Tokyo has one offer on each of two dates. -/
def obDemo : String → List OfferRecord := fun name =>
  if name = "Japan (Tokyo)" then [mkOffer "2026-10-23" 1450, mkOffer "2026-10-24" 1200]
  else []

/-- Sample outbound aggregate where all three destinations have an offer on
the same date, so one summary date group has three rows. -/
def obThree : String → List OfferRecord := fun _ => [mkOffer "2026-10-23" 100]

/-- Sample API response body with one best and one other offer group and a
pre-built deep link in its metadata. -/
def apiDemo : ApiResponse :=
  { search_metadata := some { google_flights_url := some "https://g/pre" }
    best_flights := some [gNoDuration]
    other_flights := some [gEmptyFlights] }

theorem lexLt_self (l : List Char) : lexLt l l = false := by
  induction l with
  | nil => rfl
  | cons a as ih => simp [lexLt, ih]

theorem strLtB_self (s : String) : strLtB s s = false := lexLt_self s.toList

/-- Claim C2: the time-of-day exclusion predicate holds exactly when both
cutoff settings are configured (non-empty), the departure date equals the
cutoff date, and the departure time is lexicographically strictly before the
cutoff time; consequently an offer at exactly the cutoff time, an offer on
another date, or any offer under an unset cutoff is never excluded. -/
theorem too_early_characterization (cfg : Config) (f : OfferRecord) :
    (_too_early cfg f = true ↔
      cfg.earliestDepDate ≠ "" ∧ cfg.earliestDepTime ≠ "" ∧
        f.departure_date = cfg.earliestDepDate ∧ strLtB f.dep_time cfg.earliestDepTime = true)
    ∧ (f.dep_time = cfg.earliestDepTime → _too_early cfg f = false)
    ∧ (f.departure_date ≠ cfg.earliestDepDate → _too_early cfg f = false)
    ∧ ((cfg.earliestDepDate = "" ∨ cfg.earliestDepTime = "") → _too_early cfg f = false) := by
  have hiff : _too_early cfg f = true ↔
      cfg.earliestDepDate ≠ "" ∧ cfg.earliestDepTime ≠ "" ∧
        f.departure_date = cfg.earliestDepDate ∧ strLtB f.dep_time cfg.earliestDepTime = true := by
    unfold _too_early
    by_cases h1 : cfg.earliestDepDate = "" ∨ cfg.earliestDepTime = ""
    · simp only [h1, if_true]
      constructor
      · intro h; cases h
      · rintro ⟨ha, hb, -, -⟩
        rcases h1 with h1 | h1
        · exact absurd h1 ha
        · exact absurd h1 hb
    · push_neg at h1
      by_cases h2 : f.departure_date = cfg.earliestDepDate
      · simp [h1.1, h1.2, h2]
      · simp [h1.1, h1.2, h2]
  refine ⟨hiff, ?_, ?_, ?_⟩
  · intro he
    cases hb : _too_early cfg f with
    | false => rfl
    | true =>
      have := (hiff.mp hb).2.2.2
      rw [he, strLtB_self] at this
      cases this
  · intro hd
    cases hb : _too_early cfg f with
    | false => rfl
    | true => exact absurd (hiff.mp hb).2.2.1 hd
  · intro hu
    cases hb : _too_early cfg f with
    | false => rfl
    | true =>
      have h := hiff.mp hb
      rcases hu with hu | hu
      · exact absurd hu h.1
      · exact absurd hu h.2.1

/-- Witness for claim C2: a flight departing 18:00 on the cutoff date is
excluded under the 19:00 cutoff, and one departing exactly 19:00 is not. -/
theorem too_early_characterization_witness :
    _too_early cfgCut { mkOffer "2026-10-23" 100 with dep_time := "19:00" } = false ∧
      _too_early cfgCut { mkOffer "2026-10-23" 100 with dep_time := "18:00" } = true := by
  constructor
  · exact (too_early_characterization cfgCut _).2.1 (by decide)
  · exact (too_early_characterization cfgCut _).1.mpr (by refine ⟨by decide, by decide, by decide, by decide⟩)

/-- Claim C3: a raw offer group whose flights key is absent or holds the
empty list is normalized to no record, whatever the other arguments are. -/
theorem parse_offer_empty_flights_none (cfg : Config) (g : RawOfferGroup)
    (dest_name dest_code dep_date trip_type : String) (return_date : Option String)
    (h : g.flights = none ∨ g.flights = some []) :
    parse_offer cfg g dest_name dest_code dep_date trip_type return_date = none := by
  rcases h with h | h <;> simp [parse_offer, h]

/-- Witness for claim C3 at a concrete group with an empty segment list. -/
theorem parse_offer_empty_flights_none_witness :
    parse_offer cfgDemo gEmptyFlights "Taiwan" "TPE" "2026-10-23" "outbound" none = none :=
  parse_offer_empty_flights_none cfgDemo gEmptyFlights "Taiwan" "TPE" "2026-10-23" "outbound" none
    (Or.inr rfl)

/-- Claim C6: the roundtrip loop of fetch_all_flights issues a query exactly
for the (departure, return) pairs whose return date is lexicographically
strictly after the departure date; all other pairs are skipped before the
search call. -/
theorem roundtrip_pairs_queried_iff (dep_dates ret_dates : List String) (d r : String) :
    ((d, r) ∈ roundtripQueries dep_dates ret_dates) ↔
      (d ∈ dep_dates ∧ r ∈ ret_dates ∧ strLtB d r = true) := by
  simp only [roundtripQueries, List.mem_flatMap, List.mem_filterMap]
  constructor
  · rintro ⟨dep, hdep, ret, hret, hif⟩
    cases hb : strLeB ret dep with
    | true => rw [hb] at hif; simp at hif
    | false =>
      rw [hb] at hif
      simp only [Bool.false_eq_true, if_false, Option.some.injEq, Prod.mk.injEq] at hif
      obtain ⟨h1, h2⟩ := hif
      subst h1; subst h2
      refine ⟨hdep, hret, ?_⟩
      simpa [strLeB] using hb
  · rintro ⟨hd, hr, hlt⟩
    refine ⟨d, hd, r, hr, ?_⟩
    have : strLeB r d = false := by simp [strLeB, hlt]
    simp [this]

/-- Witness for claim C6: with two departure and two return dates, the pair
with the later return date is queried and the inverted pair is not. -/
theorem roundtrip_pairs_queried_iff_witness :
    (("2026-10-23", "2026-11-05") ∈
        roundtripQueries ["2026-10-23", "2026-10-24"] ["2026-10-20", "2026-11-05"]) ∧
      ¬ (("2026-10-23", "2026-10-20") ∈
        roundtripQueries ["2026-10-23", "2026-10-24"] ["2026-10-20", "2026-11-05"]) := by
  constructor
  · exact (roundtrip_pairs_queried_iff _ _ _ _).mpr ⟨by decide, by decide, by decide⟩
  · intro hmem
    have := ((roundtrip_pairs_queried_iff _ _ _ _).mp hmem).2.2
    exact absurd this (by decide)

/-- Claim C8: with an empty return-date list, whatever the configured
trip-type preference string is, every active trip type equals outbound and
outbound is active. -/
theorem trip_types_no_return_dates (tripTypesEnv : String) :
    (∀ t ∈ mainTripTypes tripTypesEnv [], t = "outbound") ∧
      ("outbound" ∈ mainTripTypes tripTypesEnv []) := by
  unfold mainTripTypes
  simp only [List.isEmpty_nil, if_true]
  set l := (get_active_trip_types tripTypesEnv).filter (fun t => t == "outbound") with hl
  cases he : l.isEmpty with
  | true =>
    simp only [he, if_true]
    exact ⟨by intro t ht; simpa using ht, by simp⟩
  | false =>
    simp only [he, Bool.false_eq_true, if_false]
    have hall : ∀ t ∈ l, t = "outbound" := by
      intro t ht
      have := (List.mem_filter.mp ht).2
      simpa using this
    refine ⟨hall, ?_⟩
    have hne : l ≠ [] := by
      intro hnil
      rw [hnil] at he
      simp at he
    obtain ⟨x, hx⟩ := List.exists_mem_of_ne_nil l hne
    have hxo := hall x hx
    rwa [hxo] at hx

/-- Witness for claim C8: the preference "return,roundtrip" with no return
dates activates exactly outbound. -/
theorem trip_types_no_return_dates_witness :
    ("outbound" ∈ mainTripTypes "return,roundtrip" []) ∧
      mainTripTypes "return,roundtrip" [] = ["outbound"] :=
  ⟨(trip_types_no_return_dates "return,roundtrip").2, by decide⟩

/-- Claim C9: when a group with segments has total_duration absent or zero,
the normalized record carries the empty string as its formatted duration,
while _format_minutes applied to 0 would give "0h". -/
theorem parse_offer_zero_duration_empty (cfg : Config) (g : RawOfferGroup)
    (dest_name dest_code dep_date trip_type : String) (return_date : Option String)
    (s : Segment) (fs : List Segment) (h : g.flights = some (s :: fs))
    (hdur : g.total_duration = none ∨ g.total_duration = some 0) :
    ∃ rec, parse_offer cfg g dest_name dest_code dep_date trip_type return_date = some rec ∧
      rec.duration = "" ∧ _format_minutes 0 = "0h" := by
  rcases hdur with h0 | h0 <;>
    · simp only [parse_offer, h, h0, Option.getD_some, Option.getD_none]
      exact ⟨_, rfl, by simp, by decide⟩

/-- Witness for claim C9 at a concrete group lacking the total_duration key. -/
theorem parse_offer_zero_duration_empty_witness :
    ∃ rec, parse_offer cfgDemo gNoDuration "Japan (Tokyo)" "NRT" "2026-10-23" "outbound" none
        = some rec ∧ rec.duration = "" ∧ _format_minutes 0 = "0h" :=
  parse_offer_zero_duration_empty cfgDemo gNoDuration "Japan (Tokyo)" "NRT" "2026-10-23"
    "outbound" none segAC [] rfl (Or.inl rfl)

/-- Counterexample to claim C4 as stated: a raw offer group whose price key
holds -5 is normalized to a record with a negative price, so the price of a
constructed record is not always non-negative. -/
theorem parse_offer_negative_price_cex :
    ∃ rec, parse_offer cfgDemo gNegPrice "Japan (Tokyo)" "NRT" "2026-10-23" "outbound" none
        = some rec ∧ rec.price_raw < 0 := by
  refine ⟨_, rfl, ?_⟩
  decide

/-- Claim C4 amended: the price of a constructed record equals the raw price
(0 when the key is absent), so it is non-negative whenever the raw price is,
and the display string is that price rendered with zero decimal places and
thousands separators; 1450 renders as "1,450" and 1300 as "1,300". -/
theorem parse_offer_price_fields (cfg : Config) (g : RawOfferGroup)
    (dest_name dest_code dep_date trip_type : String) (return_date : Option String)
    (s : Segment) (fs : List Segment) (h : g.flights = some (s :: fs)) :
    ∃ rec, parse_offer cfg g dest_name dest_code dep_date trip_type return_date = some rec ∧
      rec.price_raw = g.price.getD 0 ∧
      rec.price_str = formatPrice (g.price.getD 0) ∧
      (0 ≤ g.price.getD 0 → 0 ≤ rec.price_raw) ∧
      formatPrice 1450 = "1,450" ∧ formatPrice 1300 = "1,300" := by
  simp only [parse_offer, h, Option.getD_some]
  exact ⟨_, rfl, rfl, rfl, fun hp => hp, by decide, by decide⟩

/-- Witness for the amended claim C4: the group priced 1450 yields a
non-negative price displayed as "1,450". -/
theorem parse_offer_price_fields_witness :
    ∃ rec, parse_offer cfgDemo gAir "Japan (Tokyo)" "NRT" "2026-10-23" "outbound" none
        = some rec ∧ rec.price_str = "1,450" ∧ 0 ≤ rec.price_raw := by
  obtain ⟨rec, h1, h2, h3, h4, h5, h6⟩ :=
    parse_offer_price_fields cfgDemo gAir "Japan (Tokyo)" "NRT" "2026-10-23" "outbound" none
      segAC [segAC2] rfl
  refine ⟨rec, h1, ?_, h4 (by decide)⟩
  rw [h3]
  decide

/-- Claim C7: _parse_response returns the concatenation of the best and other
offer-group lists truncated to the configured maximum, with every returned
group carrying the deep link taken from the response metadata (comparison of
the group lists is up to the attached _book_url key). -/
theorem parse_response_spec_props (maxResults : Nat) (data : ApiResponse) :
    ((_parse_response maxResults data).map eraseBookUrl
        = ((data.best_flights.getD [] ++ data.other_flights.getD []).take maxResults).map eraseBookUrl)
    ∧ (_parse_response maxResults data).length
        = min maxResults (data.best_flights.getD [] ++ data.other_flights.getD []).length
    ∧ ∀ fg ∈ _parse_response maxResults data,
        fg._book_url = some ((data.search_metadata.getD emptyMetadata).google_flights_url.getD "") := by
  have hcomp : (eraseBookUrl ∘ (fun fg : RawOfferGroup =>
      { fg with _book_url := some ((data.search_metadata.getD emptyMetadata).google_flights_url.getD "") }))
      = eraseBookUrl := by
    funext g
    cases g
    rfl
  refine ⟨?_, ?_, ?_⟩
  · unfold _parse_response
    rw [List.map_take, List.map_take, List.map_map, hcomp]
  · unfold _parse_response
    simp [List.length_take]
  · intro fg hfg
    unfold _parse_response at hfg
    have h1 := List.take_subset _ _ hfg
    obtain ⟨g0, hg0, heq⟩ := List.mem_map.mp h1
    rw [← heq]

/-- Witness for claim C7: in the sample response both groups are returned and
carry the metadata deep link. -/
theorem parse_response_spec_props_witness :
    ∃ fg, fg ∈ _parse_response 5 apiDemo ∧ fg._book_url = some "https://g/pre" := by
  have h := (parse_response_spec_props 5 apiDemo).2.2
  have hm : ({ gNoDuration with _book_url := some "https://g/pre" } : RawOfferGroup)
      ∈ _parse_response 5 apiDemo := by decide
  exact ⟨_, hm, (h _ hm).trans (by decide)⟩

theorem firstOccurDedup_mem (l : List String) (a : String) :
    a ∈ firstOccurDedup l ↔ a ∈ l := by
  induction l with
  | nil => simp [firstOccurDedup]
  | cons x t ih =>
    simp only [firstOccurDedup, List.mem_cons, List.mem_filter, decide_eq_true_eq, ih]
    by_cases hax : a = x
    · simp [hax]
    · simp [hax]

theorem firstOccurDedup_nodup (l : List String) : (firstOccurDedup l).Nodup := by
  induction l with
  | nil => simp [firstOccurDedup]
  | cons x t ih =>
    refine List.Nodup.cons ?_ (ih.filter _)
    intro hmem
    have := (List.mem_filter.mp hmem).2
    simp at this

theorem firstOccurDedup_filter (p : String → Bool) (l : List String) :
    (firstOccurDedup l).filter p = firstOccurDedup (l.filter p) := by
  induction l with
  | nil => rfl
  | cons x t ih =>
    cases hp : p x with
    | true =>
      have h1 : (x :: t).filter p = x :: t.filter p := by simp [List.filter_cons, hp]
      rw [h1, firstOccurDedup, firstOccurDedup, ← ih]
      have h2 : (x :: (firstOccurDedup t).filter (fun b => decide (b ≠ x))).filter p
          = x :: ((firstOccurDedup t).filter (fun b => decide (b ≠ x))).filter p := by
        simp [List.filter_cons, hp]
      rw [h2]
      congr 1
      rw [List.filter_filter, List.filter_filter]
      apply List.filter_congr
      intro a _
      rw [Bool.and_comm]
    | false =>
      have h1 : (x :: t).filter p = t.filter p := by simp [List.filter_cons, hp]
      rw [h1, firstOccurDedup, ← ih]
      have h2 : (x :: (firstOccurDedup t).filter (fun b => decide (b ≠ x))).filter p
          = ((firstOccurDedup t).filter (fun b => decide (b ≠ x))).filter p := by
        simp [List.filter_cons, hp]
      rw [h2]
      rw [List.filter_filter]
      apply List.filter_congr
      intro a ha
      have : p a = true → a ≠ x := by
        intro hpa hax
        rw [hax] at hpa
        rw [hpa] at hp
        cases hp
      cases hpa : p a with
      | true => simp [this hpa]
      | false => simp

theorem keepP_append (acc : List String) (x a : String) :
    keepP (acc ++ [x]) a = (decide (a ≠ x) && keepP acc a) := by
  by_cases h1 : a = "" <;> by_cases h2 : a = x <;> by_cases h3 : a ∈ acc <;>
    simp [keepP, List.mem_append, h1, h2, h3]

theorem dedup_foldl_eq (xs : List String) : ∀ acc : List String,
    xs.foldl dedupStep acc = acc ++ firstOccurDedup (xs.filter (keepP acc)) := by
  induction xs with
  | nil => intro acc; simp [firstOccurDedup]
  | cons x t ih =>
    intro acc
    by_cases hx : x ≠ "" ∧ x ∉ acc
    · have hstep : dedupStep acc x = acc ++ [x] := by rw [dedupStep, if_pos hx]
      have hkeep : keepP acc x = true := by simp only [keepP, decide_eq_true_eq]; exact hx
      have hrec : (x :: t).foldl dedupStep acc
          = acc ++ (x :: firstOccurDedup (t.filter (keepP (acc ++ [x])))) := by
        rw [List.foldl_cons, hstep, ih (acc ++ [x]), List.append_assoc]
        rfl
      rw [hrec]
      congr 1
      have h1 : (x :: t).filter (keepP acc) = x :: t.filter (keepP acc) := by
        simp [List.filter_cons, hkeep]
      rw [h1, firstOccurDedup, firstOccurDedup_filter, List.filter_filter]
      congr 1
      exact congrArg firstOccurDedup (List.filter_congr (fun a _ => keepP_append acc x a))
    · have hstep : dedupStep acc x = acc := by rw [dedupStep, if_neg hx]
      have hkeep : keepP acc x = false := by
        simp only [keepP, decide_eq_false_iff_not]
        exact hx
      have h1 : (x :: t).filter (keepP acc) = t.filter (keepP acc) := by
        simp [List.filter_cons, hkeep]
      rw [List.foldl_cons, hstep, ih acc, h1]

theorem airlineDedup_eq_firstOccur (names : List String) :
    airlineDedup names = firstOccurDedup (names.filter (fun a => decide (a ≠ ""))) := by
  have h := dedup_foldl_eq names []
  simp only [List.nil_append] at h
  rw [airlineDedup, h]
  congr 1
  apply List.filter_congr
  intro a _
  simp [keepP]

/-- Claim C5: for a group with segments, the airline summary is the
" / "-join of the first-occurrence deduplication of the non-empty segment
airline names taken in segment order; the deduplicated list has no duplicate
entry and contains exactly the distinct non-empty names, so two segments with
the same airline contribute a single entry. -/
theorem parse_offer_airline_dedup (cfg : Config) (g : RawOfferGroup)
    (dest_name dest_code dep_date trip_type : String) (return_date : Option String)
    (s : Segment) (fs : List Segment) (h : g.flights = some (s :: fs)) :
    ∃ rec, parse_offer cfg g dest_name dest_code dep_date trip_type return_date = some rec ∧
      rec.airline = String.intercalate " / "
        (firstOccurDedup (((s :: fs).map (fun sg => sg.airline.getD "")).filter
          (fun a => decide (a ≠ "")))) ∧
      (firstOccurDedup (((s :: fs).map (fun sg => sg.airline.getD "")).filter
        (fun a => decide (a ≠ "")))).Nodup ∧
      (∀ a, (a ∈ firstOccurDedup (((s :: fs).map (fun sg => sg.airline.getD "")).filter
          (fun a => decide (a ≠ "")))) ↔
        (a ≠ "" ∧ a ∈ (s :: fs).map (fun sg => sg.airline.getD ""))) := by
  simp only [parse_offer, h, Option.getD_some]
  refine ⟨_, rfl, ?_, firstOccurDedup_nodup _, ?_⟩
  · rw [airlineDedup_eq_firstOccur]
  · intro a
    rw [firstOccurDedup_mem, List.mem_filter]
    simp [and_comm]

/-- Witness for claim C5: two Air Canada segments yield the single-entry
summary "Air Canada". -/
theorem parse_offer_airline_dedup_witness :
    ∃ rec, parse_offer cfgDemo gAir "Japan (Tokyo)" "NRT" "2026-10-23" "outbound" none
        = some rec ∧ rec.airline = "Air Canada" := by
  obtain ⟨rec, h1, h2, h3, h4⟩ :=
    parse_offer_airline_dedup cfgDemo gAir "Japan (Tokyo)" "NRT" "2026-10-23" "outbound" none
      segAC [segAC2] rfl
  refine ⟨rec, h1, ?_⟩
  rw [h2]
  decide

theorem pyMinByPrice_mem (gs : List OfferRecord) : ∀ f : OfferRecord,
    pyMinByPrice f gs ∈ f :: gs := by
  induction gs with
  | nil => intro f; simp [pyMinByPrice]
  | cons y t ih =>
    intro f
    have hunf : pyMinByPrice f (y :: t)
        = pyMinByPrice (if y.price_raw < f.price_raw then y else f) t := rfl
    rw [hunf]
    rcases List.mem_cons.mp (ih (if y.price_raw < f.price_raw then y else f)) with h | h
    · rw [h]
      by_cases hc : y.price_raw < f.price_raw
      · rw [if_pos hc]
        exact List.mem_cons_of_mem _ (List.mem_cons_self _ _)
      · rw [if_neg hc]
        exact List.mem_cons_self _ _
    · exact List.mem_cons_of_mem _ (List.mem_cons_of_mem _ h)

theorem pyMinByPrice_le (gs : List OfferRecord) : ∀ f : OfferRecord,
    (pyMinByPrice f gs).price_raw ≤ f.price_raw ∧
      ∀ x ∈ gs, (pyMinByPrice f gs).price_raw ≤ x.price_raw := by
  induction gs with
  | nil => intro f; exact ⟨le_refl _, by simp⟩
  | cons y t ih =>
    intro f
    have hunf : pyMinByPrice f (y :: t)
        = pyMinByPrice (if y.price_raw < f.price_raw then y else f) t := rfl
    obtain ⟨hle, hall⟩ := ih (if y.price_raw < f.price_raw then y else f)
    have hboth : (if y.price_raw < f.price_raw then y else f).price_raw ≤ f.price_raw ∧
        (if y.price_raw < f.price_raw then y else f).price_raw ≤ y.price_raw := by
      by_cases hc : y.price_raw < f.price_raw
      · rw [if_pos hc]; exact ⟨le_of_lt hc, le_refl _⟩
      · rw [if_neg hc]; exact ⟨le_refl _, le_of_not_lt hc⟩
    refine ⟨?_, ?_⟩
    · rw [hunf]; exact le_trans hle hboth.1
    · intro x hx
      rcases List.mem_cons.mp hx with rfl | hx2
      · rw [hunf]; exact le_trans hle hboth.2
      · rw [hunf]; exact hall x hx2

theorem summaryRowsGo_proj (ob : String → List OfferRecord) (date : String) :
    ∀ (dests : List (String × String)) (first : Bool),
      (summaryRowsGo ob date dests first).map (fun r => (r.date, r.destName, r.offer))
        = dests.filterMap (fun p =>
            match (ob p.1).filter (fun f => f.departure_date == date) with
            | [] => none
            | g :: gs => some (date, p.1, pyMinByPrice g gs)) := by
  intro dests
  induction dests with
  | nil => intro first; rfl
  | cons p rest ih =>
    intro first
    obtain ⟨dn, dc⟩ := p
    simp only [summaryRowsGo, List.filterMap_cons]
    cases hf : (ob dn).filter (fun f => f.departure_date == date) with
    | nil => exact ih first
    | cons g gs => simp only [List.map_cons, ih false]

theorem summaryRowsGo_mem (ob : String → List OfferRecord) (date : String) :
    ∀ (dests : List (String × String)) (first : Bool) (r : SummaryRow),
      r ∈ summaryRowsGo ob date dests first →
        r.date = date ∧ ∃ g gs, (ob r.destName).filter (fun f => f.departure_date == date)
          = g :: gs ∧ r.offer = pyMinByPrice g gs := by
  intro dests
  induction dests with
  | nil => intro first r h; simp [summaryRowsGo] at h
  | cons p rest ih =>
    intro first r h
    obtain ⟨dn, dc⟩ := p
    simp only [summaryRowsGo] at h
    cases hf : (ob dn).filter (fun f => f.departure_date == date) with
    | nil =>
      rw [hf] at h
      exact ih first r h
    | cons g gs =>
      rw [hf] at h
      rcases List.mem_cons.mp h with rfl | h2
      · exact ⟨rfl, g, gs, hf, rfl⟩
      · exact ih false r h2

theorem summaryRowsGo_bg_false (ob : String → List OfferRecord) (date : String) :
    ∀ dests : List (String × String),
      (summaryRowsGo ob date dests false).map SummaryRow.bg
        = List.replicate (summaryRowsGo ob date dests false).length "#ffffff" := by
  intro dests
  induction dests with
  | nil => rfl
  | cons p rest ih =>
    obtain ⟨dn, dc⟩ := p
    simp only [summaryRowsGo]
    cases hf : (ob dn).filter (fun f => f.departure_date == date) with
    | nil => exact ih
    | cons g gs =>
      simp only [List.map_cons, List.length_cons, List.replicate_succ, ih]
      simp

theorem summaryRowsGo_bg_true (ob : String → List OfferRecord) (date : String)
    (dests : List (String × String)) :
    summaryRowsGo ob date dests true = [] ∨
      (summaryRowsGo ob date dests true).map SummaryRow.bg
        = _ALT_ROW :: List.replicate ((summaryRowsGo ob date dests true).length - 1) "#ffffff" := by
  induction dests with
  | nil => left; rfl
  | cons p rest ih =>
    obtain ⟨dn, dc⟩ := p
    simp only [summaryRowsGo]
    cases hf : (ob dn).filter (fun f => f.departure_date == date) with
    | nil => exact ih
    | cons g gs =>
      right
      simp only [List.map_cons, List.length_cons, Nat.succ_sub_one, summaryRowsGo_bg_false]
      simp

/-- Claim C1: the summary renderer emits, for each departure date in order
and each destination in configured order, exactly one row per (date,
destination) pair with offers, and that row carries an offer of minimal
price_raw among the offers of the pair; pairs without offers yield no row,
and with no rows at all the output is the no-data placeholder instead of the
table. -/
theorem render_summary_correct (cfg : Config) (outbound : String → List OfferRecord)
    (dep_dates : List String) :
    ((summaryRows cfg outbound dep_dates).map (fun r => (r.date, r.destName, r.offer))
        = summaryRowsSpec cfg outbound dep_dates)
    ∧ (∀ r ∈ summaryRows cfg outbound dep_dates,
        (r.offer ∈ (outbound r.destName).filter (fun f => f.departure_date == r.date)) ∧
          ∀ x ∈ (outbound r.destName).filter (fun f => f.departure_date == r.date),
            r.offer.price_raw ≤ x.price_raw)
    ∧ (summaryRows cfg outbound dep_dates = [] →
        render_summary_table cfg outbound dep_dates = noOutboundDataHtml)
    ∧ (summaryRows cfg outbound dep_dates ≠ [] →
        render_summary_table cfg outbound dep_dates
          = summaryTableHtml cfg
              (String.join ((summaryRows cfg outbound dep_dates).map renderSummaryRow))) := by
  refine ⟨?_, ?_, ?_, ?_⟩
  · induction dep_dates with
    | nil => rfl
    | cons d rest ih =>
      simp only [summaryRows, summaryRowsSpec, List.flatMap_cons, List.map_append] at *
      rw [summaryRowsGo_proj, ih]
  · intro r hr
    obtain ⟨d, hd, hgo⟩ := List.mem_flatMap.mp hr
    obtain ⟨hdate, g, gs, hf, hoff⟩ := summaryRowsGo_mem outbound d cfg.destinations true r hgo
    rw [hdate, hoff]
    constructor
    · rw [hf]
      exact pyMinByPrice_mem gs g
    · intro x hx
      rw [hf] at hx
      rcases List.mem_cons.mp hx with hx1 | hx2
      · rw [hx1]; exact (pyMinByPrice_le gs g).1
      · exact (pyMinByPrice_le gs g).2 x hx2
  · intro h
    simp only [render_summary_table, h]
    rfl
  · intro h
    simp only [render_summary_table]
    rw [if_neg]
    simp [List.isEmpty_iff, h]

/-- Witness for claim C1: two dates with one Tokyo offer each produce exactly
the two expected (date, destination, cheapest) rows in date order, and an
aggregate with no offers renders the placeholder. -/
theorem render_summary_correct_witness :
    ((summaryRows cfgDemo obDemo ["2026-10-23", "2026-10-24"]).map
        (fun r => (r.date, r.destName, r.offer))
      = [("2026-10-23", "Japan (Tokyo)", mkOffer "2026-10-23" 1450),
         ("2026-10-24", "Japan (Tokyo)", mkOffer "2026-10-24" 1200)])
    ∧ render_summary_table cfgDemo (fun _ => []) ["2026-10-23"] = noOutboundDataHtml := by
  constructor
  · exact (render_summary_correct cfgDemo obDemo ["2026-10-23", "2026-10-24"]).1.trans (by decide)
  · exact (render_summary_correct cfgDemo (fun _ => []) ["2026-10-23"]).2.2.1 (by decide)

/-- Claim C10: the summary table rows are the per-date groups in order, and
within each date group only the first emitted row has the highlight
background while every later row of the group is white, independent of row
index parity. -/
theorem summary_bg_first_row_only (cfg : Config) (ob : String → List OfferRecord)
    (dep_dates : List String) :
    (summaryRows cfg ob dep_dates
        = dep_dates.flatMap (fun d => summaryRowsGo ob d cfg.destinations true))
    ∧ ∀ d : String, summaryRowsGo ob d cfg.destinations true ≠ [] →
        (summaryRowsGo ob d cfg.destinations true).map SummaryRow.bg
          = _ALT_ROW :: List.replicate
              ((summaryRowsGo ob d cfg.destinations true).length - 1) "#ffffff" := by
  refine ⟨rfl, ?_⟩
  intro d hne
  rcases summaryRowsGo_bg_true ob d cfg.destinations with h | h
  · exact absurd h hne
  · exact h

/-- Witness for claim C10: a date group with three rows is colored highlight,
white, white — in particular the third row (even index 2) is white, which
index-parity striping would instead highlight. -/
theorem summary_bg_first_row_only_witness :
    (summaryRowsGo obThree "2026-10-23" cfgDemo.destinations true).map SummaryRow.bg
      = [_ALT_ROW, "#ffffff", "#ffffff"] := by
  have h := (summary_bg_first_row_only cfgDemo obThree ["2026-10-23"]).2 "2026-10-23" (by decide)
  exact h.trans (by decide)
